import Mathlib

/-!
# Verification of the Sudachi API client (`src/ext/js/language/sudachi-api.js`)

This file embeds the `SudachiApiClient` class as pure Lean functions and
proves (or refutes) the specification claims about it.

Modelling conventions, chosen to stay faithful to the JavaScript source:

* Parsed JSON (`await response.json()`) is an arbitrary JSON value, modelled
  by the inductive `Json`.  JSON numbers are modelled as integers: every
  numeric value of the wire protocol is a character offset.
* The JavaScript value `undefined` — the result of reading a missing
  property — is modelled as `none` in `Option Json`; property reads on
  `null`/`undefined` throw `TypeError`, modelled with `Except JsErr`.
* The mutable fields `_cachedSentence` (only ever `null` or a string) and
  `_cachedTokens` (initially `null`, later whatever `data.tokens` held,
  possibly `undefined`) become a `ClientState` record that every call maps
  to a new state.
* The network, the timeout race and the JSON parse of the body are an
  oracle `NetOutcome` supplied per call: the mutually exclusive outcomes of
  `fetch` racing the abort timer (2xx body parsed, 2xx body unparseable,
  non-2xx status, abort by the timer, other rejection).
* Numeric coercion (`ToNumber`) is modelled exactly for `undefined`, `null`,
  booleans, integers and decimal-integer strings; other strings, arrays and
  objects are mapped to `NaN` (`none`) — a simplification confined to
  coercions the wire protocol never exercises (the protocol puts only
  numbers in numeric positions).
-/

namespace Sudachi

/-- A parsed JSON value (the possible results of `response.json()`). -/
inductive Json where
  | null : Json
  | bool (b : Bool) : Json
  | num (n : Int) : Json
  | str (s : String) : Json
  | arr (elems : List Json) : Json
  | obj (fields : List (String × Json)) : Json

/-- The only JavaScript exception the embedded code can raise. -/
inductive JsErr where
  | typeError : JsErr
deriving DecidableEq, Repr

/-- A JavaScript value stored in `_cachedTokens`: either `undefined` or a
JSON value (which includes `null`). -/
inductive JsVal where
  | undef : JsVal
  | val (j : Json) : JsVal

/-- Field lookup in a parsed JSON object.  `JSON.parse` keeps the last
occurrence of a duplicated key, hence the reverse. -/
def lookupField (fields : List (String × Json)) (key : String) : Option Json :=
  List.lookup key fields.reverse

/-- JavaScript property read `base.key` on a parsed JSON value:
`TypeError` when the base is `null`; the field (or `undefined`) on an
object; `undefined` on any other value (primitives and arrays have no such
own property). -/
def getField : Json → String → Except JsErr (Option Json)
  | .null, _ => .error .typeError
  | .obj fields, key => .ok (lookupField fields key)
  | _, _ => .ok none

/-- JavaScript property read whose base may additionally be `undefined`
(e.g. `data.current.jishokei` when `data.current` is `undefined`). -/
def getFieldOpt : Option Json → String → Except JsErr (Option Json)
  | none, _ => .error .typeError
  | some j, key => getField j key

/-- JavaScript `ToNumber` on a possibly-`undefined` value, with `none`
playing the role of `NaN`.  Exact for `undefined`, `null`, booleans,
integers and decimal-integer strings; other strings, arrays and objects are
sent to `NaN` (see the module docstring). -/
def toNumber : Option Json → Option Int
  | none => none
  | some .null => some 0
  | some (.bool b) => some (if b then 1 else 0)
  | some (.num n) => some n
  | some (.str s) => if s.trim = "" then some 0 else s.trim.toInt?
  | some (.arr _) => none
  | some (.obj _) => none

/-- JavaScript `a <= n` where `n` is a number: numeric comparison, false
when the left side coerces to `NaN`. -/
def jsLe (a : Option Json) (n : Int) : Bool :=
  match toNumber a with
  | some x => x ≤ n
  | none => false

/-- JavaScript `n < b` where `n` is a number: numeric comparison, false
when the right side coerces to `NaN`. -/
def jsLt (n : Int) (b : Option Json) : Bool :=
  match toNumber b with
  | some y => n < y
  | none => false

/-- JavaScript subtraction `a - b`; `none` is `NaN`. -/
def jsSub (a b : Option Json) : Option Int :=
  match toNumber a, toNumber b with
  | some x, some y => some (x - y)
  | _, _ => none

/-- JavaScript `for (const x of v)`: arrays iterate their elements, strings
iterate their code points (as one-character strings); every other value —
`undefined`, `null`, numbers, booleans, plain objects — is not iterable and
throws `TypeError`. -/
def jsIterate : JsVal → Except JsErr (List Json)
  | .val (.arr xs) => .ok xs
  | .val (.str s) => .ok (s.data.map fun c => .str (String.mk [c]))
  | _ => .error .typeError

/-- The strict comparison `this._cachedSentence === sentence` (the field is
`null` or a string; `===` on strings is value equality). -/
def strictEqSentence : Option String → String → Bool
  | none, _ => false
  | some s, t => s == t

/-- The strict comparison `v === null` on a `_cachedTokens` value
(`undefined !== null` in JavaScript). -/
def isNullVal : JsVal → Bool
  | .val .null => true
  | _ => false

/-- The mutable fields of `SudachiApiClient` (the configuration fields
`_apiUrl` and `_timeout` are constants and carry no information). -/
structure ClientState where
  cachedSentence : Option String
  cachedTokens : JsVal

/-- The state established by the constructor: both cache fields `null`. -/
def ClientState.init : ClientState := ⟨none, .val .null⟩

/-- The value a call hands back to the caller's `await`: the returned
object of the source, with each field holding the JavaScript value the
object literal produced (`length` is a number or `NaN`, the others any
value including `undefined`). -/
structure LookupResult where
  jishokei : Option Json
  length : Option Int
  offset : Option Json

/-- One log emission: `log.warn` with the status, the distinct timeout
`log.error`, or the generic `log.error(error)`. -/
inductive LogEntry where
  | warnStatus (status : Int) : LogEntry
  | errorTimeout : LogEntry
  | errorGeneric : LogEntry

/-- The outcome of the single `fetch` racing the abort timer, together with
the body parse — the per-call input from the environment.  The outcomes are
mutually exclusive: the timer is cleared when the response wins the race,
and the request is aborted when the timer wins. -/
inductive NetOutcome where
  /-- a 2xx response arrived before the timer and its body parsed as `data` -/
  | ok (data : Json) : NetOutcome
  /-- a 2xx response arrived before the timer but `response.json()` rejected -/
  | okBadJson : NetOutcome
  /-- a non-2xx response arrived before the timer (body never parsed) -/
  | httpError (status : Int) : NetOutcome
  /-- the timer fired first: the request was aborted, `fetch` rejected with `AbortError` -/
  | timeout : NetOutcome
  /-- `fetch` rejected with a transport error -/
  | netError : NetOutcome

/-- Everything one call produces: the settled promise (`.error` meaning the
promise rejected, i.e. an exception propagated to the caller), the client
state after the call, what was logged, and whether `fetch` was invoked. -/
structure CallResult where
  result : Except JsErr (Option LookupResult)
  state : ClientState
  log : Option LogEntry
  networkCalled : Bool

/-- The loop of `_findTokenAtCursor`:
`for (const token of tokens) if (token.start <= cursorIndex && cursorIndex < token.end) return token;`
with JavaScript evaluation order (`token.end` is read only when the first
comparison holds, and a property read throws on a `null` element). -/
def findLoop (cursorIndex : Int) : List Json → Except JsErr (Option Json)
  | [] => .ok none
  | t :: rest => do
      let s ← getField t "start"
      if jsLe s cursorIndex then
        let e ← getField t "end"
        if jsLt cursorIndex e then .ok (some t)
        else findLoop cursorIndex rest
      else findLoop cursorIndex rest

/-- `_findTokenAtCursor(cursorIndex)`: `null` when the cached tokens are
`null`, otherwise the `for...of` scan (which throws when the cached value
is not iterable). -/
def findTokenAtCursor (cachedTokens : JsVal) (cursorIndex : Int) :
    Except JsErr (Option Json) :=
  if isNullVal cachedTokens then .ok none
  else do
    let xs ← jsIterate cachedTokens
    findLoop cursorIndex xs

/-- Building the returned object
`{jishokei: t.jishokei, length: t.end - t.start, offset: t.start}` from a
possibly-`undefined` base, reading the properties in the evaluation order
of the object literal (a read throws when the base is `undefined` or
`null`). -/
def mkResult (base : Option Json) : Except JsErr LookupResult := do
  let j ← getFieldOpt base "jishokei"
  let e ← getFieldOpt base "end"
  let s ← getFieldOpt base "start"
  .ok ⟨j, jsSub e s, s⟩

/-- The guard of the cache branch:
`this._cachedSentence === sentence && this._cachedTokens !== null`. -/
def cacheHit (st : ClientState) (sentence : String) : Bool :=
  strictEqSentence st.cachedSentence sentence && !isNullVal st.cachedTokens

/-- The body of `getJishokei(sentence, cursorIndex)` as a function of the
prior client state and the network oracle.

Cache-hit branch (outside the `try`: an exception propagates to the
caller): when `_cachedSentence === sentence && _cachedTokens !== null`,
scan the cached tokens and map the found token, with no network call and
no state change.

Network branch (inside the `try`): on the `ok` outcome the code runs
`this._cachedSentence = sentence; this._cachedTokens = data.tokens;` — the
sentence is written **before** `data.tokens` is read, so a `TypeError`
there (body `null`) is caught having already updated the sentence — then
checks `data.current === null` and maps `data.current`.  Every exception
inside the `try` is caught: `AbortError` logs the distinct timeout
message, anything else logs generically, and `null` is returned. -/
def getJishokei (st : ClientState) (sentence : String) (cursorIndex : Int)
    (net : NetOutcome) : CallResult :=
  if cacheHit st sentence then
    match findTokenAtCursor st.cachedTokens cursorIndex with
    | .error e => ⟨.error e, st, none, false⟩
    | .ok none => ⟨.ok none, st, none, false⟩
    | .ok (some t) =>
        match mkResult (some t) with
        | .error e => ⟨.error e, st, none, false⟩
        | .ok r => ⟨.ok (some r), st, none, false⟩
  else
    match net with
    | .timeout => ⟨.ok none, st, some .errorTimeout, true⟩
    | .netError => ⟨.ok none, st, some .errorGeneric, true⟩
    | .httpError status => ⟨.ok none, st, some (.warnStatus status), true⟩
    | .okBadJson => ⟨.ok none, st, some .errorGeneric, true⟩
    | .ok data =>
        let st1 : ClientState := ⟨some sentence, st.cachedTokens⟩
        match getField data "tokens" with
        | .error _ => ⟨.ok none, st1, some .errorGeneric, true⟩
        | .ok tokensField =>
            let st2 : ClientState :=
              ⟨some sentence, match tokensField with | none => .undef | some j => .val j⟩
            match getField data "current" with
            | .error _ => ⟨.ok none, st2, some .errorGeneric, true⟩
            | .ok currentField =>
                match currentField with
                | some .null => ⟨.ok none, st2, none, true⟩
                | _ =>
                    match mkResult currentField with
                    | .error _ => ⟨.ok none, st2, some .errorGeneric, true⟩
                    | .ok r => ⟨.ok (some r), st2, none, true⟩

/-- The client states reachable from construction by any sequence of calls
with any network outcomes. -/
inductive Reachable : ClientState → Prop
  | init : Reachable ClientState.init
  | step (st : ClientState) (s : String) (c : Int) (net : NetOutcome) :
      Reachable st → Reachable (getJishokei st s c net).state

/-! ## The wire-contract token shape (§3 and §6 of the specification) -/

/-- A token of the documented response schema. -/
structure Token where
  surface : String
  jishokei : String
  start : Int
  «end» : Int
deriving DecidableEq, Repr

/-- The JSON encoding of a schema token. -/
def Token.toJson (t : Token) : Json :=
  .obj [("surface", .str t.surface), ("jishokei", .str t.jishokei),
        ("start", .num t.start), ("end", .num t.«end»)]

/-- The containment rule `start ≤ cursorIndex < end` on a schema token. -/
def coversCursor (t : Token) (c : Int) : Bool :=
  t.start ≤ c && c < t.«end»

/-- The first token of the list whose span covers the cursor. -/
def findFirstCovering (ts : List Token) (c : Int) : Option Token :=
  ts.find? (fun t => coversCursor t c)

/-- The LookupResult a schema token maps to:
`{jishokei, length = end - start, offset = start}`. -/
def tokenResult (t : Token) : LookupResult :=
  ⟨some (.str t.jishokei), some (t.«end» - t.start), some (.num t.start)⟩

/-- The body of a schema-conformant successful response:
`{"tokens": [...], "current": token-or-null}`. -/
def responseJson (ts : List Token) (current : Option Token) : Json :=
  .obj [("tokens", .arr (ts.map Token.toJson)),
        ("current", match current with | none => .null | some t => t.toJson)]

/-- A call misses the cache: the stored sentence is not the argument
sentence, or the stored tokens are `null`. -/
def CacheMiss (st : ClientState) (sentence : String) : Prop :=
  ¬ (st.cachedSentence = some sentence ∧ st.cachedTokens ≠ JsVal.val .null)

/-- The cache holds a sentence together with a token array. -/
def populated (st : ClientState) : Prop :=
  ∃ s xs, st.cachedSentence = some s ∧ st.cachedTokens = JsVal.val (.arr xs)

/-- The invariant of §3 as the claims state it: `_cachedSentence` and
`_cachedTokens` are both `null` or both non-`null`. -/
def cacheCoherent (st : ClientState) : Prop :=
  (st.cachedSentence = none ∧ st.cachedTokens = JsVal.val .null) ∨
  (st.cachedSentence ≠ none ∧ st.cachedTokens ≠ JsVal.val .null)

/-- The network outcome is a failure or a schema-conformant success
(§6: `{"tokens": [...], "current": token-or-null}`). -/
def ConformantNet (net : NetOutcome) : Prop :=
  (∀ data, net ≠ .ok data) ∨ ∃ ts cur, net = .ok (responseJson ts cur)

/-- A token span that lies in a sentence: non-negative start, no inversion. -/
def Token.wfSpan (t : Token) : Prop :=
  0 ≤ t.start ∧ t.start ≤ t.«end»

/-- The cached-tokens field is `null` or a token array with well-formed
spans. -/
def WfTokensVal (v : JsVal) : Prop :=
  v = JsVal.val .null ∨
  ∃ cts : List Token, v = JsVal.val (.arr (cts.map Token.toJson)) ∧ ∀ t ∈ cts, t.wfSpan

/-- The network outcome is a failure or a schema-conformant success all of
whose tokens (the list and `current`) have well-formed spans. -/
def WfNet (net : NetOutcome) : Prop :=
  (∀ data, net ≠ .ok data) ∨
  ∃ ts cur, net = .ok (responseJson ts cur) ∧ (∀ t ∈ ts, t.wfSpan) ∧
    (∀ t, cur = some t → t.wfSpan)

/-- The alternative implementation §4.1 describes for the success path:
instead of reading the response's `current`, scan the just-cached token
array with `_findTokenAtCursor` (the step-1 containment rule) and map the
found token exactly as the cache-hit branch does. -/
def alternativeScanResult (ts : List Token) (c : Int) :
    Except JsErr (Option LookupResult) :=
  match findTokenAtCursor (.val (.arr (ts.map Token.toJson))) c with
  | .error e => .error e
  | .ok none => .ok none
  | .ok (some t) =>
      match mkResult (some t) with
      | .error e => .error e
      | .ok r => .ok (some r)

/-! ## Computation lemmas -/

lemma strictEqSentence_eq_true_iff (os : Option String) (s : String) :
    strictEqSentence os s = true ↔ os = some s := by
  cases os with
  | none => simp [strictEqSentence]
  | some a => simp [strictEqSentence]

lemma isNullVal_eq_true_iff (v : JsVal) :
    isNullVal v = true ↔ v = JsVal.val .null := by
  cases v with
  | undef => simp [isNullVal]
  | val j => cases j <;> simp [isNullVal]

lemma cacheHit_eq_true_iff (st : ClientState) (s : String) :
    cacheHit st s = true ↔
      (st.cachedSentence = some s ∧ st.cachedTokens ≠ JsVal.val .null) := by
  simp [cacheHit, strictEqSentence_eq_true_iff, ← isNullVal_eq_true_iff]

lemma cacheHit_eq_false_iff (st : ClientState) (s : String) :
    cacheHit st s = false ↔ CacheMiss st s := by
  rw [← Bool.not_eq_true, CacheMiss, not_iff_not]
  exact cacheHit_eq_true_iff st s

lemma getField_toJson_start (t : Token) :
    getField t.toJson "start" = .ok (some (.num t.start)) := rfl

lemma getField_toJson_end (t : Token) :
    getField t.toJson "end" = .ok (some (.num t.«end»)) := rfl

lemma getField_toJson_jishokei (t : Token) :
    getField t.toJson "jishokei" = .ok (some (.str t.jishokei)) := rfl

lemma mkResult_toJson (t : Token) :
    mkResult (some t.toJson) = .ok (tokenResult t) := rfl

lemma jsLe_num (x n : Int) : jsLe (some (.num x)) n = decide (x ≤ n) := rfl

lemma jsLt_num (n y : Int) : jsLt n (some (.num y)) = decide (n < y) := rfl

lemma getField_response_tokens (ts : List Token) (cur : Option Token) :
    getField (responseJson ts cur) "tokens" = .ok (some (.arr (ts.map Token.toJson))) := rfl

lemma getField_response_current (ts : List Token) (cur : Option Token) :
    getField (responseJson ts cur) "current" =
      .ok (some (match cur with | none => .null | some t => t.toJson)) := rfl

/-- The loop of `_findTokenAtCursor` over a schema token array computes the
first covering token and never throws. -/
lemma findLoop_map (c : Int) :
    ∀ ts : List Token,
      findLoop c (ts.map Token.toJson) = .ok ((findFirstCovering ts c).map Token.toJson)
  | [] => rfl
  | t :: ts => by
      rw [List.map_cons, findLoop, getField_toJson_start]
      rw [show ∀ rest, (Except.ok (ε := JsErr) (some (Json.num t.start)) >>= rest)
            = rest (some (.num t.start)) from fun _ => rfl]
      by_cases h1 : t.start ≤ c
      · rw [if_pos (by simpa [jsLe_num] using h1), getField_toJson_end]
        rw [show ∀ rest, (Except.ok (ε := JsErr) (some (Json.num t.«end»)) >>= rest)
              = rest (some (.num t.«end»)) from fun _ => rfl]
        by_cases h2 : c < t.«end»
        · rw [if_pos (by simpa [jsLt_num] using h2)]
          simp [findFirstCovering, List.find?_cons, coversCursor, h1, h2]
        · rw [if_neg (by simpa [jsLt_num] using h2), findLoop_map c ts]
          simp [findFirstCovering, List.find?_cons, coversCursor, h1, h2]
      · rw [if_neg (by simpa [jsLe_num] using h1), findLoop_map c ts]
        simp [findFirstCovering, List.find?_cons, coversCursor, h1]

lemma findTokenAtCursor_map (ts : List Token) (c : Int) :
    findTokenAtCursor (.val (.arr (ts.map Token.toJson))) c =
      .ok ((findFirstCovering ts c).map Token.toJson) := by
  rw [show findTokenAtCursor (.val (.arr (ts.map Token.toJson))) c
        = findLoop c (ts.map Token.toJson) from rfl]
  exact findLoop_map c ts

/-! ## Branch equations for `getJishokei` -/

/-- The cache-hit branch on a schema token array: the first covering token
(or absence) is returned, the state is untouched, nothing is logged, no
network request is made. -/
lemma getJishokei_hit (st : ClientState) (sentence : String) (c : Int)
    (ts : List Token) (net : NetOutcome)
    (hs : st.cachedSentence = some sentence)
    (ht : st.cachedTokens = .val (.arr (ts.map Token.toJson))) :
    getJishokei st sentence c net =
      ⟨.ok ((findFirstCovering ts c).map tokenResult), st, none, false⟩ := by
  have hguard : cacheHit st sentence = true := by
    rw [cacheHit_eq_true_iff]
    exact ⟨hs, by rw [ht]; simp⟩
  rw [getJishokei.eq_def, if_pos hguard, ht, findTokenAtCursor_map]
  cases hfind : findFirstCovering ts c with
  | none => rfl
  | some t => simp [mkResult_toJson]

/-- Whatever the cache-hit branch does — return a token, return `null`, or
throw — it leaves the state untouched, logs nothing and avoids the
network. -/
lemma getJishokei_hit_effects (st : ClientState) (sentence : String) (c : Int)
    (net : NetOutcome) (hguard : cacheHit st sentence = true) :
    (getJishokei st sentence c net).state = st ∧
    (getJishokei st sentence c net).log = none ∧
    (getJishokei st sentence c net).networkCalled = false := by
  rw [getJishokei.eq_def, if_pos hguard]
  split
  · exact ⟨rfl, rfl, rfl⟩
  · exact ⟨rfl, rfl, rfl⟩
  · split
    · exact ⟨rfl, rfl, rfl⟩
    · exact ⟨rfl, rfl, rfl⟩

/-- The four failure outcomes on a cache miss: `null` is returned, the
state is untouched, and the logged entry identifies the failure. -/
lemma getJishokei_miss_fail (st : ClientState) (sentence : String) (c : Int)
    (hguard : cacheHit st sentence = false) :
    getJishokei st sentence c .timeout = ⟨.ok none, st, some .errorTimeout, true⟩ ∧
    getJishokei st sentence c .netError = ⟨.ok none, st, some .errorGeneric, true⟩ ∧
    (∀ status, getJishokei st sentence c (.httpError status)
      = ⟨.ok none, st, some (.warnStatus status), true⟩) ∧
    getJishokei st sentence c .okBadJson = ⟨.ok none, st, some .errorGeneric, true⟩ := by
  refine ⟨?_, ?_, fun status => ?_, ?_⟩ <;>
    rw [getJishokei.eq_def, if_neg (by simp [hguard])]

/-- The success outcome with a schema-conformant body on a cache miss: the
cache is replaced wholesale by the new sentence and token array, and the
response's `current` (mapped, or `null`) is returned. -/
lemma getJishokei_miss_ok (st : ClientState) (sentence : String) (c : Int)
    (ts : List Token) (cur : Option Token)
    (hguard : cacheHit st sentence = false) :
    getJishokei st sentence c (.ok (responseJson ts cur)) =
      ⟨.ok (cur.map tokenResult),
       ⟨some sentence, .val (.arr (ts.map Token.toJson))⟩, none, true⟩ := by
  rw [getJishokei.eq_def, if_neg (by simp [hguard])]
  cases cur with
  | none => rfl
  | some t => rfl

/-! ## The claims -/

/-- C1: when the cached sentence equals the argument sentence and the cache
holds a token array, `getJishokei` makes no network request, mutates
nothing, logs nothing, and returns the first cached token (in cached order)
whose span satisfies `start ≤ cursorIndex < end`, mapped to
`{jishokei, length = end - start, offset = start}` — or absent when no
cached token covers the cursor. -/
theorem claim1_cache_hit (st : ClientState) (sentence : String) (c : Int)
    (ts : List Token) (net : NetOutcome)
    (hs : st.cachedSentence = some sentence)
    (ht : st.cachedTokens = .val (.arr (ts.map Token.toJson))) :
    getJishokei st sentence c net =
      ⟨.ok ((findFirstCovering ts c).map tokenResult), st, none, false⟩ :=
  getJishokei_hit st sentence c ts net hs ht

/-- C1 witness: a concrete cache hit whose cursor lies in the second cached
token. -/
theorem claim1_witness :
    getJishokei
        ⟨some "ab", .val (.arr ([⟨"a", "x", 0, 1⟩, ⟨"b", "y", 1, 3⟩].map Token.toJson))⟩
        "ab" 2 .timeout
      = ⟨.ok (some (tokenResult ⟨"b", "y", 1, 3⟩)),
         ⟨some "ab", .val (.arr ([⟨"a", "x", 0, 1⟩, ⟨"b", "y", 1, 3⟩].map Token.toJson))⟩,
         none, false⟩ :=
  claim1_cache_hit
    ⟨some "ab", .val (.arr ([⟨"a", "x", 0, 1⟩, ⟨"b", "y", 1, 3⟩].map Token.toJson))⟩
    "ab" 2 [⟨"a", "x", 0, 1⟩, ⟨"b", "y", 1, 3⟩] .timeout rfl rfl

/-- C2: refutation — a 2xx response whose body is the valid JSON `null` is
a schema-mismatched failure (the call returns absent and logs an error),
yet the cache is left half overwritten: `_cachedSentence = sentence` runs
before `data.tokens` throws, so the new sentence `"B"` now sits next to the
previous tokens. -/
theorem claim2_half_write :
    getJishokei ⟨some "A", .val (.arr [Token.toJson ⟨"a", "x", 0, 1⟩])⟩ "B" 0 (.ok .null)
      = ⟨.ok none, ⟨some "B", .val (.arr [Token.toJson ⟨"a", "x", 0, 1⟩])⟩,
         some .errorGeneric, true⟩ ∧
    (some "B" : Option String) ≠ some "A" :=
  ⟨rfl, by decide⟩

/-- C3: on a cache miss, a successful schema-conformant response replaces
the cache wholesale with the argument sentence and the response's token
array — even when `current` is `null` — and the call returns the mapped
`current` token, or absent when `current` is `null`. -/
theorem claim3_success_replaces_cache (st : ClientState) (sentence : String)
    (c : Int) (ts : List Token) (cur : Option Token)
    (hmiss : CacheMiss st sentence) :
    getJishokei st sentence c (.ok (responseJson ts cur)) =
      ⟨.ok (cur.map tokenResult),
       ⟨some sentence, .val (.arr (ts.map Token.toJson))⟩, none, true⟩ :=
  getJishokei_miss_ok st sentence c ts cur
    ((cacheHit_eq_false_iff st sentence).mpr hmiss)

/-- C3 witness: a concrete response with `current = null` — absent result,
but the cache is populated with the token array. -/
theorem claim3_witness :
    getJishokei ClientState.init "s" 0 (.ok (responseJson [⟨"a", "x", 0, 1⟩] none))
      = ⟨.ok none, ⟨some "s", .val (.arr [Token.toJson ⟨"a", "x", 0, 1⟩])⟩,
         none, true⟩ :=
  claim3_success_replaces_cache ClientState.init "s" 0 [⟨"a", "x", 0, 1⟩] none
    (fun h => Option.noConfusion h.1)

/-- C4: refutation — a reachable state from which `getJishokei` throws.
A first call whose 2xx body is `{}` stores `undefined` in `_cachedTokens`;
the second call with the same sentence passes the `!== null` cache check
and `for...of undefined` throws a `TypeError` outside the `try`, which
propagates to the caller. -/
theorem claim4_throw_reachable :
    Reachable (getJishokei ClientState.init "A" 0 (.ok (.obj []))).state ∧
    (getJishokei (getJishokei ClientState.init "A" 0 (.ok (.obj []))).state
        "A" 0 .timeout).result = .error .typeError :=
  ⟨Reachable.step _ _ _ _ Reachable.init, rfl⟩

/-- C5: refutation — from the freshly constructed state (which satisfies
the both-`null`-or-both-non-`null` invariant), one call whose 2xx body is
the valid JSON `null` leaves `_cachedSentence` set but `_cachedTokens`
still `null`, breaking the invariant. -/
theorem claim5_invariant_broken :
    cacheCoherent ClientState.init ∧
    ¬ cacheCoherent (getJishokei ClientState.init "B" 0 (.ok .null)).state := by
  constructor
  · exact Or.inl ⟨rfl, rfl⟩
  · have hstate : (getJishokei ClientState.init "B" 0 (.ok .null)).state
        = ⟨some "B", .val .null⟩ := rfl
    rw [hstate]
    rintro (⟨h1, -⟩ | ⟨-, h2⟩)
    · exact Option.noConfusion h1
    · exact h2 rfl

/-- C6: when the timer wins the race (the request is aborted and `fetch`
rejects with `AbortError`) the call returns absent, leaves the cache
unchanged, and logs the entry that identifies the timeout — distinct from
the generic error and every status log; when a conformant response wins
instead (the timer being cleared), the call returns its mapped `current`. -/
theorem claim6_timeout (st : ClientState) (sentence : String) (c : Int)
    (ts : List Token) (cur : Option Token) (hmiss : CacheMiss st sentence) :
    getJishokei st sentence c .timeout = ⟨.ok none, st, some .errorTimeout, true⟩ ∧
    LogEntry.errorTimeout ≠ .errorGeneric ∧
    (∀ status, LogEntry.errorTimeout ≠ .warnStatus status) ∧
    (getJishokei st sentence c (.ok (responseJson ts cur))).result
      = .ok (cur.map tokenResult) := by
  have hg := (cacheHit_eq_false_iff st sentence).mpr hmiss
  refine ⟨(getJishokei_miss_fail st sentence c hg).1, by simp, fun status => by simp, ?_⟩
  rw [getJishokei_miss_ok st sentence c ts cur hg]

/-- C6 witness: the timeout outcome and a just-in-time response on the
fresh state. -/
theorem claim6_witness :
    getJishokei ClientState.init "s" 1 .timeout
        = ⟨.ok none, ClientState.init, some .errorTimeout, true⟩ ∧
    (getJishokei ClientState.init "s" 1
        (.ok (responseJson [⟨"a", "x", 0, 2⟩] (some ⟨"a", "x", 0, 2⟩)))).result
      = .ok (some (tokenResult ⟨"a", "x", 0, 2⟩)) :=
  ⟨(claim6_timeout ClientState.init "s" 1 [⟨"a", "x", 0, 2⟩] (some ⟨"a", "x", 0, 2⟩)
      (fun h => Option.noConfusion h.1)).1,
   (claim6_timeout ClientState.init "s" 1 [⟨"a", "x", 0, 2⟩] (some ⟨"a", "x", 0, 2⟩)
      (fun h => Option.noConfusion h.1)).2.2.2⟩

/-- C7: when the service computes `current` by the same containment rule as
the cache-hit scan (the first token of the list covering `cursor_index`,
else `null`), returning the mapped `current` — the implemented path —
coincides with scanning the just-cached token array through
`_findTokenAtCursor` and mapping the found token — the alternative path. -/
theorem claim7_refinement (st : ClientState) (sentence : String) (c : Int)
    (ts : List Token) (cur : Option Token) (hmiss : CacheMiss st sentence)
    (hrule : cur = findFirstCovering ts c) :
    (getJishokei st sentence c (.ok (responseJson ts cur))).result
      = alternativeScanResult ts c := by
  subst hrule
  have hg := (cacheHit_eq_false_iff st sentence).mpr hmiss
  rw [getJishokei_miss_ok st sentence c ts _ hg]
  show Except.ok ((findFirstCovering ts c).map tokenResult) = _
  unfold alternativeScanResult
  rw [findTokenAtCursor_map]
  cases hfind : findFirstCovering ts c with
  | none => rfl
  | some t => simp [mkResult_toJson]

/-- C7 witness: a concrete conformant response whose `current` follows the
containment rule. -/
theorem claim7_witness :
    (getJishokei ClientState.init "s" 1
        (.ok (responseJson [⟨"a", "x", 0, 2⟩] (some ⟨"a", "x", 0, 2⟩)))).result
      = alternativeScanResult [⟨"a", "x", 0, 2⟩] 1 :=
  claim7_refinement ClientState.init "s" 1 [⟨"a", "x", 0, 2⟩]
    (some ⟨"a", "x", 0, 2⟩) (fun h => Option.noConfusion h.1) rfl

/-- C8 counterexample: the code never validates spans, so a conformant-shaped
response whose `current` token has `start = 2, end = 0` yields a non-absent
result with `length = -2 < 0`. -/
theorem claim8_counterexample :
    (getJishokei ClientState.init "A" 0
        (.ok (responseJson [] (some ⟨"x", "y", 2, 0⟩)))).result
      = .ok (some ⟨some (.str "y"), some (-2), some (.num 2)⟩) ∧
    (-2 : Int) < 0 :=
  ⟨rfl, by decide⟩

/-- C8 as amended: provided every token the cache or the response carries
has a well-formed span (`0 ≤ start ≤ end`), every non-absent result has
`length ≥ 0` and `offset ≥ 0`, on the cache-hit path and the network path
alike. -/
theorem claim8_nonneg (st : ClientState) (sentence : String) (c : Int)
    (net : NetOutcome) (r : LookupResult)
    (hstate : WfTokensVal st.cachedTokens) (hnet : WfNet net)
    (hres : (getJishokei st sentence c net).result = .ok (some r)) :
    ∃ l o, r.length = some l ∧ r.offset = some (.num o) ∧ 0 ≤ l ∧ 0 ≤ o := by
  by_cases hhit : cacheHit st sentence = true
  · obtain ⟨hs, hnn⟩ := (cacheHit_eq_true_iff st sentence).mp hhit
    rcases hstate with hnull | ⟨cts, hct, hwf⟩
    · exact absurd hnull hnn
    · rw [getJishokei_hit st sentence c cts net hs hct] at hres
      have hres' : Except.ok (ε := JsErr) ((findFirstCovering cts c).map tokenResult)
          = .ok (some r) := hres
      cases hfind : findFirstCovering cts c with
      | none => rw [hfind] at hres'; simp at hres'
      | some t =>
          rw [hfind] at hres'
          simp only [Option.map_some', Except.ok.injEq, Option.some.injEq] at hres'
          have hw := hwf t (List.mem_of_find?_eq_some hfind)
          refine ⟨t.«end» - t.start, t.start, ?_, ?_, ?_, hw.1⟩
          · rw [← hres']; rfl
          · rw [← hres']; rfl
          · exact sub_nonneg.mpr hw.2
  · have hg : cacheHit st sentence = false := by
      rwa [Bool.not_eq_true] at hhit
    rcases hnet with hfail | ⟨ts, cur, hok, hwf, hwfcur⟩
    · cases net with
      | ok data => exact absurd rfl (hfail data)
      | okBadJson =>
          rw [(getJishokei_miss_fail st sentence c hg).2.2.2] at hres; simp at hres
      | httpError status =>
          rw [(getJishokei_miss_fail st sentence c hg).2.2.1 status] at hres; simp at hres
      | timeout =>
          rw [(getJishokei_miss_fail st sentence c hg).1] at hres; simp at hres
      | netError =>
          rw [(getJishokei_miss_fail st sentence c hg).2.1] at hres; simp at hres
    · subst hok
      rw [getJishokei_miss_ok st sentence c ts cur hg] at hres
      have hres' : Except.ok (ε := JsErr) (cur.map tokenResult) = .ok (some r) := hres
      cases cur with
      | none => simp at hres'
      | some t =>
          simp only [Option.map_some', Except.ok.injEq, Option.some.injEq] at hres'
          have hw := hwfcur t rfl
          refine ⟨t.«end» - t.start, t.start, ?_, ?_, ?_, hw.1⟩
          · rw [← hres']; rfl
          · rw [← hres']; rfl
          · exact sub_nonneg.mpr hw.2

/-- C8 witness: a well-formed response token, with the non-negative length
and offset produced by the amended claim. -/
theorem claim8_witness :
    ∃ l o, (tokenResult ⟨"a", "x", 0, 2⟩).length = some l ∧
      (tokenResult ⟨"a", "x", 0, 2⟩).offset = some (.num o) ∧ 0 ≤ l ∧ 0 ≤ o :=
  claim8_nonneg ClientState.init "s" 1
    (.ok (responseJson [⟨"a", "x", 0, 2⟩] (some ⟨"a", "x", 0, 2⟩)))
    (tokenResult ⟨"a", "x", 0, 2⟩)
    (Or.inl rfl)
    (Or.inr ⟨[⟨"a", "x", 0, 2⟩], some ⟨"a", "x", 0, 2⟩, rfl,
      by simp [Token.wfSpan],
      fun t ht => by injection ht with h; subst h; exact ⟨by decide, by decide⟩⟩)
    rfl

/-- C9 counterexample: a successful response populates the cache with a
token array, but a later 2xx response with `"tokens": null` — valid JSON,
wrong schema — writes `null` back into `_cachedTokens`, returning the cache
to the absent state after construction. -/
theorem claim9_counterexample :
    (getJishokei ClientState.init "A" 0 (.ok (responseJson [] none))).state
      = ⟨some "A", .val (.arr [])⟩ ∧
    (getJishokei ⟨some "A", .val (.arr [])⟩ "B" 0
        (.ok (.obj [("tokens", .null), ("current", .null)]))).state.cachedTokens
      = .val .null :=
  ⟨rfl, rfl⟩

/-- C9 as amended: provided every successful response is schema-conformant
(`tokens` an array, `current` a token or `null`), a cache populated with a
sentence and a token array stays so after every call, whatever its outcome. -/
theorem claim9_populated_stays (st : ClientState) (s : String) (c : Int)
    (net : NetOutcome) (hp : populated st) (hnet : ConformantNet net) :
    populated (getJishokei st s c net).state := by
  by_cases hhit : cacheHit st s = true
  · rw [(getJishokei_hit_effects st s c net hhit).1]; exact hp
  · have hg : cacheHit st s = false := by
      rwa [Bool.not_eq_true] at hhit
    rcases hnet with hfail | ⟨ts, cur, hok⟩
    · cases net with
      | ok data => exact absurd rfl (hfail data)
      | okBadJson => rw [(getJishokei_miss_fail st s c hg).2.2.2]; exact hp
      | httpError status => rw [(getJishokei_miss_fail st s c hg).2.2.1 status]; exact hp
      | timeout => rw [(getJishokei_miss_fail st s c hg).1]; exact hp
      | netError => rw [(getJishokei_miss_fail st s c hg).2.1]; exact hp
    · subst hok
      rw [getJishokei_miss_ok st s c ts cur hg]
      exact ⟨s, ts.map Token.toJson, rfl, rfl⟩

/-- C9 witness: a populated cache survives a timed-out call. -/
theorem claim9_witness :
    populated (getJishokei ⟨some "A", .val (.arr [])⟩ "B" 2 .timeout).state :=
  claim9_populated_stays ⟨some "A", .val (.arr [])⟩ "B" 2 .timeout
    ⟨"A", [], rfl, rfl⟩ (Or.inl fun _ h => nomatch h)

/-- C10: a successful response with an empty token array still populates
the cache: every later call with the same sentence — any cursor, any
network oracle — is a cache hit that returns absent, touches nothing, and
makes no network request. -/
theorem claim10_empty_tokens_cache (st : ClientState) (sentence : String)
    (c1 c2 : Int) (net2 : NetOutcome) (hmiss : CacheMiss st sentence) :
    getJishokei (getJishokei st sentence c1 (.ok (responseJson [] none))).state
        sentence c2 net2
      = ⟨.ok none,
         (getJishokei st sentence c1 (.ok (responseJson [] none))).state,
         none, false⟩ := by
  have hg := (cacheHit_eq_false_iff st sentence).mpr hmiss
  rw [getJishokei_miss_ok st sentence c1 [] none hg]
  exact getJishokei_hit ⟨some sentence, .val (.arr ([].map Token.toJson))⟩
    sentence c2 [] net2 rfl rfl

/-- C10 witness: the empty-tokens response on the fresh state, followed by
a same-sentence call at another cursor. -/
theorem claim10_witness :
    getJishokei (getJishokei ClientState.init "s" 0 (.ok (responseJson [] none))).state
        "s" 7 .netError
      = ⟨.ok none,
         (getJishokei ClientState.init "s" 0 (.ok (responseJson [] none))).state,
         none, false⟩ :=
  claim10_empty_tokens_cache ClientState.init "s" 0 7 .netError
    (fun h => Option.noConfusion h.1)

end Sudachi
